import Mathlib

/-!
# Verification of the JobTree metacontroller sync core

Shallow embedding of `examples/jobtree/sync.py`: the phase-store helpers
(`get_job_phase`, `set_job_phase`), the dependency predicates
(`phase_matches`, `should_run`, `calculate_jobs`), the nested-dictionary
accessor (`getpath`) and the reconcile orchestrator (`handle_json_request`).

JSON-like request/response documents are modelled by the inductive `JVal`
(strings, integers, arrays, objects); Python exceptions that the code can
raise (`KeyError`, `TypeError`, `AttributeError`, `ValueError`) are modelled
by `PyErr`, and every fallible operation returns `Except PyErr _`.
-/
/-- Python exceptions observable from `sync.py` (see also
`test_sync.py::test_getpath`, which distinguishes all of the first three). -/
inductive PyErr where
  | keyError (k : String)
  | typeError
  | attributeError
  | valueError
deriving DecidableEq

/-- A JSON-like value as produced by `json.loads`: strings, integers,
arrays and string-keyed objects.  Objects keep insertion order, like
Python dictionaries. -/
inductive JVal where
  | str (s : String)
  | num (n : Int)
  | list (xs : List JVal)
  | obj (fields : List (String × JVal))

/-- `Phases = List[Tuple[str, str]]` from `sync.py` line 13:
the recorded `(job_name, phase)` pairs. -/
abbrev Phases := List (String × String)

/-- `Dependency = Tuple[str, str]` from `sync.py` line 9:
a `(job_name, required_phase)` pair. -/
abbrev Dependency := String × String

/-- `Dependencies = List[Dependency]` from `sync.py` line 10. -/
abbrev Dependencies := List Dependency

/-- `DependencyMap = List[Tuple[str, Dependencies]]` from `sync.py` line 11. -/
abbrev DependencyMap := List (String × Dependencies)

/-- `sync.py` lines 16-19.  The Python code builds
`{job_name: job_phase for job_name, job_phase in phases}` — a dict in which a
later binding of the same key overwrites an earlier one — and then calls
`.get(job_name)`.  Hence the lookup returns the LAST phase recorded for the
job, or `none` when the job has no entry. -/
def get_job_phase (job_name : String) (phases : Phases) : Option String :=
  (phases.reverse.find? (fun p => p.1 == job_name)).map Prod.snd

/-- `sync.py` lines 22-29.  Replace the FIRST entry holding `job_name`
(`for ... break`), or append a new entry when none exists (`for ... else`). -/
def set_job_phase (job_name : String) (phases : Phases) (phase : String) : Phases :=
  match phases with
  | [] => [(job_name, phase)]
  | (name, p) :: rest =>
    if name == job_name then (job_name, phase) :: rest
    else (name, p) :: set_job_phase job_name rest phase

/-- `sync.py` lines 32-49.  A dependency requiring `Succeeded` is satisfied
by `Succeeded` or `Disappeared`; any other requirement needs an exact match.
A missing phase (`None` in Python) never equals a phase string. -/
def phase_matches (dependency : Dependency) (phases : Phases) : Bool :=
  let current_phase := get_job_phase dependency.1 phases
  if dependency.2 == "Succeeded" then
    current_phase == some "Succeeded" || current_phase == some "Disappeared"
  else
    current_phase == some dependency.2

/-- `sync.py` lines 52-75.  A job already `Succeeded` or `Disappeared` must
not run; otherwise it runs iff all of its dependencies match. -/
def should_run (job_name : String) (phases : Phases)
    (my_dependencies : Dependencies) : Bool :=
  let phase := get_job_phase job_name phases
  if phase == some "Succeeded" || phase == some "Disappeared" then false
  else my_dependencies.all (fun d => phase_matches d phases)

/-- `sync.py` lines 78-88.  The Python comprehension applies `str` to each
job name; on the annotated type `DependencyMap` (names already `str`) that
is the identity, so it is omitted here. -/
def calculate_jobs (all_dependencies : DependencyMap) (phases : Phases) :
    List String :=
  (all_dependencies.filter (fun jd => should_run jd.1 phases jd.2)).map
    (fun jd => jd.1)

/-- The per-observed-job merge step, `sync.py` lines 195-196: an observed
phase overwrites the recorded one unless the recorded phase is `Succeeded`. -/
def merge_observed (phases : Phases) (job : String × String) : Phases :=
  if get_job_phase job.1 phases == some "Succeeded" then phases
  else set_job_phase job.1 phases job.2

/-! ## The JSON document layer -/
/-- Python `path.split(':')` on the character list of `path`
(`sync.py` line 115; splitting on a single-character separator). -/
def splitColonChars : List Char → List String
  | [] => [""]
  | c :: cs =>
    if c = ':' then "" :: splitColonChars cs
    else
      match splitColonChars cs with
      | [] => [String.mk [c]]
      | s :: rest => String.mk (c :: s.toList) :: rest

/-- `path.split(':')` for a path given as a string. -/
def splitColon (path : String) : List String :=
  splitColonChars path.toList

/-- First-match lookup in an object's field list (Python dictionaries hold
each key once, so first match is the unique match). -/
def dictGet (d : List (String × JVal)) (k : String) : Option JVal :=
  (d.find? (fun p => p.1 == k)).map Prod.snd

/-- Python `root.get(k, dv)` on an object's field list. -/
def dictGetD (d : List (String × JVal)) (k : String) (dv : JVal) : JVal :=
  match dictGet d k with
  | some v => v
  | none => dv

/-- `getpath` (`sync.py` lines 104-130) after splitting the path, walking the
key list.  `dflt = none` models the `Ellipsis` sentinel (no default):
a missing key raises `KeyError` and indexing a non-dict raises `TypeError`.
With a default, a missing key yields `{}` (intermediate) or the default
(final), and `.get` on a non-dict raises `AttributeError`
(behaviour pinned down by `test_sync.py::test_getpath`). -/
def getpathList (root : JVal) (path : List String) (dflt : Option JVal) :
    Except PyErr JVal :=
  match path with
  | [] => .ok root
  | [k] =>
    match root, dflt with
    | .obj d, _ =>
      match dictGet d k, dflt with
      | some v, _ => .ok v
      | none, some dv => .ok dv
      | none, none => .error (.keyError k)
    | _, none => .error .typeError
    | _, some _ => .error .attributeError
  | k :: k2 :: rest =>
    match root, dflt with
    | .obj d, none =>
      match dictGet d k with
      | some v => getpathList v (k2 :: rest) none
      | none => .error (.keyError k)
    | .obj d, some dv =>
      getpathList (dictGetD d k (.obj [])) (k2 :: rest) (some dv)
    | _, none => .error .typeError
    | _, some _ => .error .attributeError

/-- `getpath(root, path, default)`; `dflt = none` is the `Ellipsis` case. -/
def getpath (root : JVal) (path : String) (dflt : Option JVal) :
    Except PyErr JVal :=
  getpathList root (splitColon path) dflt

mutual

/-- Python `repr(...)` of a decoded JSON value (used by `str` on containers). -/
def pyRepr : JVal → String
  | .str s => "\x27" ++ s ++ "\x27"
  | .num n => toString n
  | .list xs => "[" ++ pyReprList xs ++ "]"
  | .obj d => "\x7b" ++ pyReprObj d ++ "\x7d"

def pyReprList : List JVal → String
  | [] => ""
  | [x] => pyRepr x
  | x :: y :: rest => pyRepr x ++ ", " ++ pyReprList (y :: rest)

def pyReprObj : List (String × JVal) → String
  | [] => ""
  | [(k, v)] => "\x27" ++ k ++ "\x27: " ++ pyRepr v
  | (k, v) :: e :: rest =>
    "\x27" ++ k ++ "\x27: " ++ pyRepr v ++ ", " ++ pyReprObj (e :: rest)

end

/-- Python `str(...)` / `'{}'.format(...)` on a decoded JSON value.
On strings it is the identity; numbers print decimally; containers print
as their Python `repr`. -/
def pyStr : JVal → String
  | .str s => s
  | .num n => toString n
  | .list xs => "[" ++ pyReprList xs ++ "]"
  | .obj d => "\x7b" ++ pyReprObj d ++ "\x7d"

/-- Python iteration `for x in v`: a list yields its elements, a dict yields
its keys, a string yields its characters, a number is not iterable. -/
def pyIter : JVal → Except PyErr (List JVal)
  | .str s => .ok (s.toList.map (fun c => .str (String.mk [c])))
  | .num _ => .error .typeError
  | .list xs => .ok xs
  | .obj d => .ok (d.map (fun p => .str p.1))

/-- Python tuple unpacking `a, b = v`: needs an iterable of exactly two
items (`ValueError` otherwise, `TypeError` for a number). -/
def unpack2 : JVal → Except PyErr (JVal × JVal)
  | .str s =>
    match s.toList with
    | [a, b] => .ok (.str (String.mk [a]), .str (String.mk [b]))
    | _ => .error .valueError
  | .num _ => .error .typeError
  | .list [a, b] => .ok (a, b)
  | .list _ => .error .valueError
  | .obj [(k1, _), (k2, _)] => .ok (.str k1, .str k2)
  | .obj _ => .error .valueError

/-- The typed helpers of `sync.py` declare job names and phases as `str`
(`Phase = Tuple[str, str]`, `Dependency = Tuple[str, str]`); this coercion
enforces that contract on decoded JSON values. -/
def asStr : JVal → Except PyErr String
  | .str s => .ok s
  | _ => .error .typeError

/-- Python `v[k]` on a decoded JSON value: `KeyError` for a missing key,
`TypeError` when `v` is not a dict. -/
def pyIndex (v : JVal) (k : String) : Except PyErr JVal :=
  match v with
  | .obj d =>
    match dictGet d k with
    | some x => .ok x
    | none => .error (.keyError k)
  | _ => .error .typeError

/-- Python `v.items()`: `AttributeError` when `v` is not a dict. -/
def pyItems : JVal → Except PyErr (List (String × JVal))
  | .obj d => .ok d
  | _ => .error .attributeError

/-- Python dict assignment `d[k] = v` (overwrite in place, else append),
used for the `current_jobs` dict of `sync.py` line 194. -/
def dictSet (d : List (String × String)) (k v : String) :
    List (String × String) :=
  match d with
  | [] => [(k, v)]
  | (k2, v2) :: rest =>
    if k2 == k then (k, v) :: rest else (k2, v2) :: dictSet rest k v

/-! ## The reconcile orchestrator -/
/-- `sync.py` lines 169-170: `child_pod_name.startswith(name_prefix)`. -/
def is_my_child (pfx : String) (child_pod_name : String) : Bool :=
  pfx.toList.isPrefixOf child_pod_name.toList

/-- `sync.py` lines 172-173: `child_pod_name[len(name_prefix):]`. -/
def extract_name (pfx : String) (child_pod_name : String) : String :=
  String.mk (child_pod_name.toList.drop pfx.toList.length)

/-- `sync.py` lines 178-184: build one desired pod document.  The container
name is read a second time here, exactly as `container['name']` is at
line 182. -/
def new_pod (pfx : String) (restart_policy : JVal) (container : JVal) :
    Except PyErr JVal := do
  let cname ← pyIndex container "name"
  .ok (.obj
    [("apiVersion", .str "v1"),
     ("kind", .str "Pod"),
     ("metadata", .obj [("name", .str (pfx ++ pyStr cname))]),
     ("spec", .obj [("containers", .list [container]),
                    ("restartPolicy", restart_policy)])])

/-- `sync.py` lines 191-196: walk the observed `children:Pod.v1` items;
for every pod whose name carries the parent prefix, record its phase in
`current_jobs` and merge it into `phases` via `merge_observed`.
Python reads `value['status']['phase']` for line 194 and again for
line 196; both reads return the same value, read once here. -/
def mergeLoop (pfx : String) :
    List (String × JVal) → Phases → List (String × String) →
    Except PyErr (Phases × List (String × String))
  | [], phases, current_jobs => .ok (phases, current_jobs)
  | (pod_name, value) :: rest, phases, current_jobs =>
    if is_my_child pfx pod_name then do
      let job_name := extract_name pfx pod_name
      let st ← pyIndex value "status"
      let phv ← pyIndex st "phase"
      let ph ← asStr phv
      mergeLoop pfx rest (merge_observed phases (job_name, ph))
        (dictSet current_jobs job_name ph)
    else
      mergeLoop pfx rest phases current_jobs

/-- `sync.py` lines 197-201, the disappearance loop:
`for job_name, phase in phases:` advances an internal index over `phases`
while `set_job_phase(job_name, phases, 'Disappeared')` mutates the list in
place.  Every such call targets the name found at the current index, so by
`length_set_job_phase_of_mem` the length never changes and the loop performs
exactly `phases.length` iterations; the first (fuel) argument counts them. -/
def disappearGo (current_jobs : List (String × String)) :
    Nat → Nat → Phases → Phases
  | 0, _, phases => phases
  | fuel + 1, i, phases =>
    if h : i < phases.length then
      let item := phases.get ⟨i, h⟩
      if item.2 == "Running" &&
          !(current_jobs.any (fun q => q.1 == item.1)) then
        disappearGo current_jobs fuel (i + 1)
          (set_job_phase item.1 phases "Disappeared")
      else
        disappearGo current_jobs fuel (i + 1) phases
    else phases

/-- The disappearance pass over the merged phases. -/
def disappearLoop (current_jobs : List (String × String)) (phases : Phases) :
    Phases :=
  disappearGo current_jobs phases.length 0 phases

/-- `sync.py` lines 187-188: the `(job_name, phase)` comprehension over
`parent:status:phases`.  The source's `Phases` type records both components
as `str` (`sync.py` lines 12-13), enforced here by `asStr`. -/
def parsePhaseItems : List JVal → Except PyErr Phases
  | [] => .ok []
  | it :: rest => do
    let (a, b) ← unpack2 it
    let aS ← asStr a
    let bS ← asStr b
    let tail ← parsePhaseItems rest
    .ok ((aS, bS) :: tail)

/-- `sync.py` lines 205-206: the inner `(dep_job_name, dep_phase)`
comprehension.  The source's `Dependency` type records both components as
`str` (`sync.py` line 9), enforced here by `asStr`. -/
def parseDepPairs : List JVal → Except PyErr Dependencies
  | [] => .ok []
  | it :: rest => do
    let (a, b) ← unpack2 it
    let aS ← asStr a
    let bS ← asStr b
    let tail ← parseDepPairs rest
    .ok ((aS, bS) :: tail)

/-- `sync.py` lines 204-207, one `(job_name, job_dependencies)` entry.
The job name is passed through `str` — `sync.py` applies `str(job_name)`
inside `calculate_jobs` (lines 87-88); it is applied here once so that
`calculate_jobs` can keep its annotated `DependencyMap` type. -/
def parseDepEntries : List JVal → Except PyErr DependencyMap
  | [] => .ok []
  | it :: rest => do
    let (job_name, job_deps) ← unpack2 it
    let depItems ← pyIter job_deps
    let deps ← parseDepPairs depItems
    let tail ← parseDepEntries rest
    .ok ((pyStr job_name, deps) :: tail)

/-- `sync.py` lines 204-207: iterate the `parent:spec:dependencies` value
and build the dependency map. -/
def parseDependencies (v : JVal) : Except PyErr DependencyMap := do
  let items ← pyIter v
  parseDepEntries items

/-- `sync.py` lines 211-214: keep the containers whose `name` is among the
desired job names and build a pod document for each.  `container['name']`
is looked up for every container (raising `KeyError` when absent); a
non-string name is never equal to any of the desired names (all `str`). -/
def buildPods (pfx : String) (restart_policy : JVal) (desired : List String) :
    List JVal → Except PyErr (List JVal)
  | [] => .ok []
  | c :: rest => do
    let n ← pyIndex c "name"
    match n with
    | .str s =>
      if desired.contains s then do
        let pod ← new_pod pfx restart_policy c
        let pods ← buildPods pfx restart_policy desired rest
        .ok (pod :: pods)
      else buildPods pfx restart_policy desired rest
    | _ => buildPods pfx restart_policy desired rest

/-- `handle_json_request` (`sync.py` lines 133-226) with
`calculator_func = calculate_jobs` (the only calculator in the module, also
the pairing installed on `JobTreeRequestHandler`).  The `print` calls are
diagnostics and have no effect on the returned document.  In the response,
the phase tuples appear as two-element arrays, which is how the tuple list
is serialized by `json.dumps` at the webhook boundary. -/
def handle_json_request (request_data : JVal) : Except PyErr JVal := do
  -- line 162: counter = get('parent:status:counter', 0)
  let counterV ← getpath request_data "parent:status:counter" (some (.num 0))
  -- line 167: name_prefix = '{}-'.format(get('parent:metadata:name'))
  let nameV ← getpath request_data "parent:metadata:name" none
  let pfx := pyStr nameV ++ "-"
  -- line 176: restart_policy, default 'Never'
  let restart_policy ←
    getpath request_data "parent:spec:template:spec:restartPolicy"
      (some (.str "Never"))
  -- lines 187-189: previous phases (default []), then phases = copy
  let phasesV ← getpath request_data "parent:status:phases" (some (.list []))
  let phaseItems ← pyIter phasesV
  let previous_phases ← parsePhaseItems phaseItems
  -- lines 190-196: merge observed child pod phases
  let childrenV ← getpath request_data "children:Pod.v1" (some (.obj []))
  let childItems ← pyItems childrenV
  let (phases, current_jobs) ← mergeLoop pfx childItems previous_phases []
  -- lines 197-201: disappearance detection
  let phases := disappearLoop current_jobs phases
  -- lines 204-207: the declared dependency graph
  let depsV ← getpath request_data "parent:spec:dependencies" (some (.list []))
  let dependencies ← parseDependencies depsV
  -- line 208: desired_job_names = calculator_func(dependencies, phases)
  let desired_job_names := calculate_jobs dependencies phases
  -- lines 211-214: desired pods
  let containersV ←
    getpath request_data "parent:spec:template:spec:containers"
      (some (.list []))
  let containers ← pyIter containersV
  let desired_pods ← buildPods pfx restart_policy desired_job_names containers
  -- lines 224-226: `counter + 1` raises TypeError on a non-integer counter
  let counter ←
    (match counterV with
     | .num n => Except.ok n
     | _ => Except.error PyErr.typeError)
  .ok (.obj
    [("status", .obj
      [("phases", .list (phases.map (fun p => .list [.str p.1, .str p.2]))),
       ("counter", .num (counter + 1))]),
     ("children", .list desired_pods)])

/-! ## Disappearance-loop lemmas -/
/-- The effect of one disappearance-loop visit on one entry: a `Running`
entry whose job is not currently observed becomes `Disappeared`. -/
def disappearStep (current_jobs : List (String × String))
    (q : String × String) : String × String :=
  if q.2 == "Running" && !(current_jobs.any (fun r => r.1 == q.1)) then
    (q.1, "Disappeared")
  else q

/-- Replace (first occurrence) or append a key in an object's field list —
Python dict assignment for `JVal` objects, used to build request variants. -/
def dictSetJ (d : List (String × JVal)) (k : String) (v : JVal) :
    List (String × JVal) :=
  match d with
  | [] => [(k, v)]
  | (k2, v2) :: rest =>
    if k2 == k then (k, v) :: rest else (k2, v2) :: dictSetJ rest k v

/-- The request `req` with its `children:Pod.v1` collection replaced by
`pods` (other `children` collections, if any, are preserved). -/
def withPods (req : JVal) (pods : List (String × JVal)) : JVal :=
  match req with
  | .obj d =>
    let ch := match dictGet d "children" with
              | some (.obj cd) => cd
              | _ => []
    .obj (dictSetJ d "children" (.obj (dictSetJ ch "Pod.v1" (.obj pods))))
  | other => other

/-- The request of the concrete scenario: parent `MyName`, one declared
job `A` with no dependencies, a container template named `A`, no prior
phases, no observed pods. -/
def exampleRequest : JVal := .obj
  [("parent", .obj
    [("metadata", .obj [("name", .str "MyName")]),
     ("spec", .obj
       [("dependencies", .list [.list [.str "A", .list []]]),
        ("template", .obj [("spec", .obj
          [("containers", .list [.obj [("name", .str "A")]])])])])]),
   ("children", .obj [("Pod.v1", .obj [])])]

/-- The expected response of the concrete scenario. -/
def exampleResponse : JVal := .obj
  [("status", .obj [("phases", .list []), ("counter", .num 1)]),
   ("children", .list [.obj
     [("apiVersion", .str "v1"),
      ("kind", .str "Pod"),
      ("metadata", .obj [("name", .str "MyName-A")]),
      ("spec", .obj [("containers", .list [.obj [("name", .str "A")]]),
                     ("restartPolicy", .str "Never")])]])]

/-- The exact request document fed by `test_sync.py::test_dummy`:
`parent.spec.dependencies` is given as a MAPPING
`\x7b'EXAMPLE CONTAINER': []\x7d`. -/
def testDummyRequest : JVal := .obj
  [("controller", .obj [("status", .obj [])]),
   ("parent", .obj
    [("metadata", .obj [("name", .str "MyName")]),
     ("spec", .obj
       [("dependencies", .obj [("EXAMPLE CONTAINER", .list [])]),
        ("template", .obj [("spec", .obj
          [("containers", .list
            [.obj [("name", .str "EXAMPLE CONTAINER")]])])])])]),
   ("children", .obj [("Pod.v1", .obj [])])]

/-- `testDummyRequest` with the SAME dependency graph encoded as an ordered
list of `(job name, list of pairs)` entries. -/
def testDummyListRequest : JVal := .obj
  [("controller", .obj [("status", .obj [])]),
   ("parent", .obj
    [("metadata", .obj [("name", .str "MyName")]),
     ("spec", .obj
       [("dependencies", .list [.list [.str "EXAMPLE CONTAINER", .list []]]),
        ("template", .obj [("spec", .obj
          [("containers", .list
            [.obj [("name", .str "EXAMPLE CONTAINER")]])])])])]),
   ("children", .obj [("Pod.v1", .obj [])])]

/-- The response `test_sync.py::test_dummy` expects (its `phases` value is
the empty dict in the test; the code builds the empty list). -/
def testDummyListResponse : JVal := .obj
  [("status", .obj [("phases", .list []), ("counter", .num 1)]),
   ("children", .list [.obj
     [("apiVersion", .str "v1"),
      ("kind", .str "Pod"),
      ("metadata", .obj [("name", .str "MyName-EXAMPLE CONTAINER")]),
      ("spec", .obj
        [("containers", .list [.obj [("name", .str "EXAMPLE CONTAINER")]]),
         ("restartPolicy", .str "Never")])]])]

/-- A request whose dependency graph is the empty mapping. -/
def emptyGraphObjRequest : JVal := .obj
  [("parent", .obj
    [("metadata", .obj [("name", .str "MyName")]),
     ("spec", .obj
       [("dependencies", .obj []),
        ("template", .obj [("spec", .obj
          [("containers", .list [.obj [("name", .str "A")]])])])])]),
   ("children", .obj [("Pod.v1", .obj [])])]

/-- The same request with the empty graph encoded as the empty list. -/
def emptyGraphListRequest : JVal := .obj
  [("parent", .obj
    [("metadata", .obj [("name", .str "MyName")]),
     ("spec", .obj
       [("dependencies", .list []),
        ("template", .obj [("spec", .obj
          [("containers", .list [.obj [("name", .str "A")]])])])])]),
   ("children", .obj [("Pod.v1", .obj [])])]

/-- The response to an empty dependency graph: no desired pods. -/
def emptyGraphResponse : JVal := .obj
  [("status", .obj [("phases", .list []), ("counter", .num 1)]),
   ("children", .list [])]

/-- Request with every optional field absent (`restartPolicy`, counter,
phases, children, dependencies): only the mandatory parent name plus a
container template. -/
def minimalRequest : JVal := .obj
  [("parent", .obj
    [("metadata", .obj [("name", .str "N")]),
     ("spec", .obj
       [("template", .obj [("spec", .obj
          [("containers", .list [.obj [("name", .str "A")]])])])])])]

/-- Response to `minimalRequest`: every optional took its default
(counter `0 + 1`, phases `[]`, no observed children, empty graph hence no
pods). -/
def minimalResponse : JVal := .obj
  [("status", .obj [("phases", .list []), ("counter", .num 1)]),
   ("children", .list [])]

/-- `minimalRequest` plus a declared dependency entry for `A`, so that a pod
is produced and the `restartPolicy` default becomes visible. -/
def defaultsRequest : JVal := .obj
  [("parent", .obj
    [("metadata", .obj [("name", .str "N")]),
     ("spec", .obj
       [("dependencies", .list [.list [.str "A", .list []]]),
        ("template", .obj [("spec", .obj
          [("containers", .list [.obj [("name", .str "A")]])])])])])]

/-- Response to `defaultsRequest`: one pod with the default restart policy
`Never`. -/
def defaultsResponse : JVal := .obj
  [("status", .obj [("phases", .list []), ("counter", .num 1)]),
   ("children", .list [.obj
     [("apiVersion", .str "v1"),
      ("kind", .str "Pod"),
      ("metadata", .obj [("name", .str "N-A")]),
      ("spec", .obj [("containers", .list [.obj [("name", .str "A")]]),
                     ("restartPolicy", .str "Never")])]])]

/-- Request for the `counter_increments` witness: counter present, value 5. -/
def counterWitnessRequest : JVal := .obj
  [("parent", .obj
    [("metadata", .obj [("name", .str "N")]),
     ("status", .obj [("counter", .num 5)])])]

/-- Request for the `prefix_noninterference` witness. -/
def noninterferenceRequest : JVal := .obj
  [("parent", .obj [("metadata", .obj [("name", .str "P")])])]

/-! ## Sanity checks on concrete inputs -/

-- Sanity checks on small inputs.
example : get_job_phase "A" [("A", "Running"), ("A", "Failed")] = some "Failed" := by
  decide

example : set_job_phase "A" [("A", "Running"), ("A", "Failed")] "Pending"
    = [("A", "Pending"), ("A", "Failed")] := by decide

example : phase_matches ("A", "Succeeded") [("A", "Disappeared")] = true := by decide

example : phase_matches ("A", "Pending") [] = false := by decide

example : should_run "B" [("A", "Succeeded")] [("A", "Succeeded")] = true := by decide

example : calculate_jobs [("A", []), ("B", [("A", "Running")])] [] = ["A"] := by decide

example : splitColon "parent:status:counter" = ["parent", "status", "counter"] := by
  decide

example : splitColon "outer" = ["outer"] := by decide

-- The `test_sync.py::test_getpath` table, line by line.
example : getpath (.obj []) "outer" none = .error (.keyError "outer") := by rfl

example : getpath (.obj []) "outer" (some (.str "d")) = .ok (.str "d") := by rfl

example : getpath (.obj []) "outer:inner" none = .error (.keyError "outer") := by rfl

example : getpath (.obj []) "outer:inner" (some (.str "d")) = .ok (.str "d") := by rfl

example : getpath (.obj [("outer", .str "value")]) "missing" none
    = .error (.keyError "missing") := by rfl

example : getpath (.obj [("outer", .str "value")]) "missing" (some (.str "d"))
    = .ok (.str "d") := by rfl

example : getpath (.obj [("outer", .str "value")]) "outer" none = .ok (.str "value") := by
  rfl

example : getpath (.obj [("outer", .str "value")]) "outer:inner" none
    = .error .typeError := by rfl

example : getpath (.obj [("outer", .str "value")]) "outer:inner" (some (.str "d"))
    = .error .attributeError := by rfl

example : getpath (.obj [("outer", .obj [])]) "outer:inner" none
    = .error (.keyError "inner") := by rfl

example : getpath (.obj [("outer", .obj [("inner", .str "value")])]) "outer:inner" none
    = .ok (.str "value") := by rfl

example : is_my_child "MyName-" "MyName-A" = true := by decide

example : is_my_child "MyName-" "Other-A" = false := by decide

example : extract_name "MyName-" "MyName-A" = "A" := by decide

example : disappearLoop [] [("A", "Running"), ("B", "Succeeded")]
    = [("A", "Disappeared"), ("B", "Succeeded")] := by decide

example : disappearLoop [("A", "Running")] [("A", "Running")]
    = [("A", "Running")] := by decide

/-! ## Lemmas and claim theorems -/

/-! ## Phase-store lemmas -/
theorem get_job_phase_nil (j : String) : get_job_phase j [] = none := rfl

theorem get_job_phase_cons (j n p : String) (rest : Phases) :
    get_job_phase j ((n, p) :: rest)
      = (get_job_phase j rest).or (if n == j then some p else none) := by
  unfold get_job_phase
  rw [List.reverse_cons, List.find?_append]
  cases hf : List.find? (fun q => q.1 == j) rest.reverse with
  | none =>
    by_cases hn : n == j
    · simp [List.find?, hn]
    · simp [List.find?, hn]
  | some e => simp

theorem get_job_phase_not_mem {j : String} {ps : Phases}
    (h : j ∉ ps.map Prod.fst) : get_job_phase j ps = none := by
  have hf : List.find? (fun q => q.1 == j) ps.reverse = none := by
    rw [List.find?_eq_none]
    intro x hx hbeq
    exact h (List.mem_map.2 ⟨x, List.mem_reverse.1 hx, eq_of_beq hbeq⟩)
  simp [get_job_phase, hf]

theorem get_job_phase_set_ne {j n : String} (hne : j ≠ n) (ps : Phases)
    (p : String) :
    get_job_phase j (set_job_phase n ps p) = get_job_phase j ps := by
  have hnj : (n == j) = false := beq_eq_false_iff_ne.2 (Ne.symm hne)
  induction ps with
  | nil =>
    simp only [set_job_phase, get_job_phase_cons, hnj]
    simp [get_job_phase]
  | cons hd tl ih =>
    obtain ⟨m, q⟩ := hd
    simp only [set_job_phase]
    by_cases hm : m == n
    · rw [if_pos hm, get_job_phase_cons, get_job_phase_cons, hnj,
        eq_of_beq hm, hnj]
      simp
    · rw [if_neg hm, get_job_phase_cons, get_job_phase_cons, ih]

theorem get_job_phase_set_same {n : String} {ps : Phases}
    (hnd : (ps.map Prod.fst).Nodup) (p : String) :
    get_job_phase n (set_job_phase n ps p) = some p := by
  induction ps with
  | nil => simp [set_job_phase, get_job_phase_cons, get_job_phase]
  | cons hd tl ih =>
    obtain ⟨m, q⟩ := hd
    simp only [List.map_cons, List.nodup_cons] at hnd
    obtain ⟨hm_not, hnd_tl⟩ := hnd
    simp only [set_job_phase]
    by_cases hm : m == n
    · rw [if_pos hm, get_job_phase_cons,
        get_job_phase_not_mem (eq_of_beq hm ▸ hm_not)]
      simp
    · rw [if_neg hm, get_job_phase_cons, ih hnd_tl]
      simp

theorem map_fst_set_job_phase_of_mem {n : String} {ps : Phases} (p : String)
    (h : n ∈ ps.map Prod.fst) :
    (set_job_phase n ps p).map Prod.fst = ps.map Prod.fst := by
  induction ps with
  | nil => simp at h
  | cons hd tl ih =>
    obtain ⟨m, q⟩ := hd
    simp only [set_job_phase]
    by_cases hm : m == n
    · rw [if_pos hm]
      simp [eq_of_beq hm]
    · rw [if_neg hm]
      simp only [List.map_cons, List.mem_cons] at h
      rcases h with h | h
      · exact absurd (beq_iff_eq.2 h.symm) hm
      · simp [ih h]

theorem map_fst_set_job_phase_of_not_mem {n : String} {ps : Phases}
    (p : String) (h : n ∉ ps.map Prod.fst) :
    (set_job_phase n ps p).map Prod.fst = ps.map Prod.fst ++ [n] := by
  induction ps with
  | nil => simp [set_job_phase]
  | cons hd tl ih =>
    obtain ⟨m, q⟩ := hd
    simp only [List.map_cons, List.mem_cons, not_or] at h
    obtain ⟨hmn, htl⟩ := h
    simp only [set_job_phase]
    rw [if_neg (fun hh => hmn (eq_of_beq hh).symm)]
    simp [ih htl]

theorem nodup_set_job_phase {n : String} {ps : Phases} (p : String)
    (hnd : (ps.map Prod.fst).Nodup) :
    ((set_job_phase n ps p).map Prod.fst).Nodup := by
  by_cases h : n ∈ ps.map Prod.fst
  · rw [map_fst_set_job_phase_of_mem p h]; exact hnd
  · rw [map_fst_set_job_phase_of_not_mem p h]
    rw [List.nodup_append]
    exact ⟨hnd, List.nodup_singleton n,
      fun a ha hb => by simp at hb; exact h (hb ▸ ha)⟩

theorem get_merge_observed_ne {j : String} {o : String × String}
    (hne : j ≠ o.1) (ps : Phases) :
    get_job_phase j (merge_observed ps o) = get_job_phase j ps := by
  unfold merge_observed
  split
  · rfl
  · exact get_job_phase_set_ne hne ps o.2

theorem nodup_merge_observed {ps : Phases} {o : String × String}
    (hnd : (ps.map Prod.fst).Nodup) :
    ((merge_observed ps o).map Prod.fst).Nodup := by
  unfold merge_observed
  split
  · exact hnd
  · exact nodup_set_job_phase o.2 hnd

theorem get_foldl_merge_not_mem {j : String} :
    ∀ (obs : List (String × String)) (ps : Phases), (∀ o ∈ obs, o.1 ≠ j) →
      get_job_phase j (obs.foldl merge_observed ps) = get_job_phase j ps := by
  intro obs
  induction obs with
  | nil => intro ps h; rfl
  | cons o rest ih =>
    intro ps h
    rw [List.foldl_cons, ih _ (fun o' ho' => h o' (List.mem_cons.2 (Or.inr ho')))]
    exact get_merge_observed_ne (Ne.symm (h o (List.mem_cons.2 (Or.inl rfl)))) ps

theorem sticky_foldl {job : String} {ps : Phases}
    (h : get_job_phase job ps = some "Succeeded")
    (obs : List (String × String)) :
    get_job_phase job (obs.foldl merge_observed ps) = some "Succeeded" := by
  induction obs generalizing ps with
  | nil => exact h
  | cons o rest ih =>
    rw [List.foldl_cons]
    apply ih
    by_cases ho : o.1 = job
    · unfold merge_observed
      rw [ho, h]
      simp [h, ho]
    · rw [get_merge_observed_ne (Ne.symm ho) ps]
      exact h

theorem sticky_batches {job : String} {ps : Phases}
    (h : get_job_phase job ps = some "Succeeded")
    (batches : List (List (String × String))) :
    get_job_phase job
      (batches.foldl (fun ph batch => batch.foldl merge_observed ph) ps)
      = some "Succeeded" := by
  induction batches generalizing ps with
  | nil => exact h
  | cons b rest ih =>
    rw [List.foldl_cons]
    exact ih (sticky_foldl h b)

/-- `set_job_phase` keeps the list length whenever the job already has an
entry (it then only replaces the first such entry). -/
theorem length_set_job_phase_of_mem {job : String} {ps : Phases} (p : String)
    (h : job ∈ ps.map Prod.fst) :
    (set_job_phase job ps p).length = ps.length := by
  induction ps with
  | nil => simp at h
  | cons hd tl ih =>
    obtain ⟨n, q⟩ := hd
    simp only [set_job_phase]
    by_cases hn : n == job
    · simp [hn]
    · simp only [hn, if_false, List.length_cons]
      simp only [List.map_cons, List.mem_cons] at h
      rcases h with h | h
      · exact absurd (by simp [h]) hn
      · simp [ih h]

theorem set_job_phase_head_eq (n p phase : String) (tl : Phases) :
    set_job_phase n ((n, p) :: tl) phase = (n, phase) :: tl := by
  simp [set_job_phase]

theorem set_job_phase_cons_ne {n m : String} (hne : m ≠ n) (q phase : String)
    (tl : Phases) :
    set_job_phase n ((m, q) :: tl) phase
      = (m, q) :: set_job_phase n tl phase := by
  simp only [set_job_phase]
  rw [if_neg (fun hh => hne (eq_of_beq hh))]

theorem disappearGo_cons (cur : List (String × String)) :
    ∀ (fuel i : Nat) (e : String × String) (ps : Phases),
      e.1 ∉ ps.map Prod.fst →
      disappearGo cur fuel (i + 1) (e :: ps) = e :: disappearGo cur fuel i ps := by
  intro fuel
  induction fuel with
  | zero => intro i e ps he; rfl
  | succ fuel ih =>
    intro i e ps he
    by_cases h : i < ps.length
    · have h' : i + 1 < (e :: ps).length := by simp; omega
      have hitem : (e :: ps).get ⟨i + 1, h'⟩ = ps.get ⟨i, h⟩ := by
        simp [List.get_eq_getElem]
      simp only [disappearGo, dif_pos h', dif_pos h, hitem]
      set item := ps.get ⟨i, h⟩ with hitem_def
      have hmem : item.1 ∈ ps.map Prod.fst :=
        List.mem_map.2 ⟨item, by rw [hitem_def, List.get_eq_getElem]; exact List.getElem_mem h, rfl⟩
      have hne : e.1 ≠ item.1 := fun hh => he (hh ▸ hmem)
      by_cases hcond : (item.2 == "Running" &&
          !(cur.any (fun q => q.1 == item.1))) = true
      · rw [if_pos hcond, if_pos hcond]
        have hset : set_job_phase item.1 (e :: ps) "Disappeared"
            = e :: set_job_phase item.1 ps "Disappeared" := by
          obtain ⟨e1, e2⟩ := e
          exact set_job_phase_cons_ne hne e2 "Disappeared" ps
        rw [hset]
        exact ih (i + 1) e _ (by
          rw [map_fst_set_job_phase_of_mem "Disappeared" hmem]; exact he)
      · rw [if_neg hcond, if_neg hcond]
        exact ih (i + 1) e ps he
    · have h' : ¬(i + 1 < (e :: ps).length) := by simp; omega
      simp only [disappearGo, dif_neg h', dif_neg h]

theorem disappearLoop_eq_map (cur : List (String × String)) :
    ∀ ps : Phases, (ps.map Prod.fst).Nodup →
      disappearLoop cur ps = ps.map (disappearStep cur) := by
  intro ps
  induction ps with
  | nil => intro _; rfl
  | cons e tl ih =>
    intro hnd
    simp only [List.map_cons, List.nodup_cons] at hnd
    obtain ⟨he, hnd_tl⟩ := hnd
    obtain ⟨n, p⟩ := e
    show disappearGo cur (tl.length + 1) 0 ((n, p) :: tl) = _
    have h0 : 0 < ((n, p) :: tl).length := by simp
    simp only [disappearGo, dif_pos h0, List.get_eq_getElem,
      List.getElem_cons_zero]
    by_cases hcond : (p == "Running" && !(cur.any fun q => q.1 == n)) = true
    · have ih' : disappearGo cur tl.length 0 tl
          = List.map (disappearStep cur) tl := ih hnd_tl
      rw [if_pos hcond, set_job_phase_head_eq n p "Disappeared" tl,
        disappearGo_cons cur tl.length 0 (n, "Disappeared") tl he, ih']
      have hstep : disappearStep cur (n, p) = (n, "Disappeared") := by
        unfold disappearStep
        rw [if_pos hcond]
      simp [hstep]
    · have ih' : disappearGo cur tl.length 0 tl
          = List.map (disappearStep cur) tl := ih hnd_tl
      rw [if_neg hcond,
        disappearGo_cons cur tl.length 0 (n, p) tl he, ih']
      have hstep : disappearStep cur (n, p) = (n, p) := by
        unfold disappearStep
        rw [if_neg hcond]
      simp [hstep]

theorem get_job_phase_map_disappearStep {J ph : String} {ps : Phases}
    (cur : List (String × String)) (h : get_job_phase J ps = some ph) :
    get_job_phase J (ps.map (disappearStep cur))
      = some ((disappearStep cur (J, ph)).2) := by
  unfold get_job_phase at h ⊢
  rw [← List.map_reverse, List.find?_map]
  have hcomp : ((fun q : String × String => q.1 == J) ∘ disappearStep cur)
      = fun q : String × String => q.1 == J := by
    funext q
    simp only [Function.comp]
    unfold disappearStep
    split <;> rfl
  rw [hcomp]
  cases hf : List.find? (fun q => q.1 == J) ps.reverse with
  | none => rw [hf] at h; simp at h
  | some e =>
    have h2 : e.2 = ph := Option.some.inj (by rw [hf] at h; exact h)
    have hp :=
      @List.find?_some _ (fun q : String × String => q.1 == J) e ps.reverse hf
    have he1 : e.1 = J := eq_of_beq hp
    have he : e = (J, ph) := by
      rw [← he1, ← h2]
    simp [he]

/-! ## Reconcile-level results -/
/-- Inversion principle for a monadic bind in `Except`. -/
theorem except_bind_eq_ok {ε α β : Type} {x : Except ε α}
    {f : α → Except ε β} {b : β} :
    (x >>= f) = .ok b ↔ ∃ a, x = .ok a ∧ f a = .ok b := by
  cases x <;> simp [Bind.bind, Except.bind]

theorem except_ok_bind {ε α β : Type} (a : α) (f : α → Except ε β) :
    ((Except.ok a : Except ε α) >>= f) = f a := rfl

theorem except_error_bind {ε α β : Type} (e : ε) (f : α → Except ε β) :
    ((Except.error e : Except ε α) >>= f) = .error e := rfl

theorem getpathList_empty_obj_default (k : String) (rest : List String)
    (d : JVal) :
    getpathList (.obj []) (k :: rest) (some d) = .ok d := by
  induction rest generalizing k with
  | nil => simp [getpathList, dictGet]
  | cons k2 rest2 ih => simpa [getpathList, dictGet] using ih k2

/-- When `getpath` without a default raises and `getpath` with a default
succeeds, the returned value is exactly the default. -/
theorem getpathList_default_of_error :
    ∀ (path : List String) (root : JVal) (d v : JVal) (e : PyErr),
      getpathList root path none = .error e →
      getpathList root path (some d) = .ok v →
      v = d := by
  intro path
  induction path with
  | nil => intro root d v e he hv; simp [getpathList] at he
  | cons k rest ih =>
    intro root d v e he hv
    cases rest with
    | nil =>
      cases root with
      | obj dd =>
        cases hg : dictGet dd k with
        | some w => simp [getpathList, hg] at he
        | none =>
          simp only [getpathList, hg] at hv
          exact (Except.ok.inj hv).symm
      | str s => simp [getpathList] at hv
      | num n => simp [getpathList] at hv
      | list xs => simp [getpathList] at hv
    | cons k2 rest2 =>
      cases root with
      | obj dd =>
        cases hg : dictGet dd k with
        | some w =>
          simp only [getpathList, dictGetD, hg] at he hv
          exact ih w d v e he hv
        | none =>
          simp only [getpathList, dictGetD, hg] at hv
          rw [getpathList_empty_obj_default k2 rest2 d] at hv
          exact (Except.ok.inj hv).symm
      | str s => simp [getpathList] at hv
      | num n => simp [getpathList] at hv
      | list xs => simp [getpathList] at hv

theorem buildPods_ok_name :
    ∀ (cs : List JVal) (pfx : String) (rp : JVal) (des : List String)
      (out : List JVal),
      buildPods pfx rp des cs = .ok out →
      ∀ c ∈ cs, ∃ v, pyIndex c "name" = .ok v := by
  intro cs
  induction cs with
  | nil => intro _ _ _ _ _ c hc; simp at hc
  | cons c0 rest ih =>
    intro pfx rp des out hok c hc
    unfold buildPods at hok
    obtain ⟨n, hn, hrest⟩ := except_bind_eq_ok.1 hok
    rcases List.mem_cons.1 hc with rfl | hc'
    · exact ⟨n, hn⟩
    · cases n with
      | str s =>
        have hred : (if des.contains s = true then (do
            let pod ← new_pod pfx rp c0
            let pods ← buildPods pfx rp des rest
            Except.ok (pod :: pods)) else buildPods pfx rp des rest)
            = Except.ok out := hrest
        by_cases hdes : des.contains s = true
        · rw [if_pos hdes] at hred
          obtain ⟨pod, hpod, hrest2⟩ := except_bind_eq_ok.1 hred
          obtain ⟨pods2, hpods2, _⟩ := except_bind_eq_ok.1 hrest2
          exact ih pfx rp des pods2 hpods2 c hc'
        · rw [if_neg hdes] at hred
          exact ih pfx rp des out hred c hc'
      | num k => exact ih pfx rp des out hrest c hc'
      | list xs => exact ih pfx rp des out hrest c hc'
      | obj dd => exact ih pfx rp des out hrest c hc'

theorem dictGet_dictSetJ_self (d : List (String × JVal)) (k : String)
    (v : JVal) : dictGet (dictSetJ d k v) k = some v := by
  induction d with
  | nil =>
    show dictGet [(k, v)] k = some v
    rw [dictGet, List.find?_cons_of_pos _ (by simp)]
    rfl
  | cons e rest ih =>
    obtain ⟨k2, v2⟩ := e
    simp only [dictSetJ]
    by_cases hk : k2 == k
    · rw [if_pos hk, dictGet, List.find?_cons_of_pos _ (by simp)]
      rfl
    · rw [if_neg hk, dictGet, List.find?_cons_of_neg _ (by simpa using hk)]
      exact ih

theorem dictGetD_dictSetJ_self (d : List (String × JVal)) (k : String)
    (v dv : JVal) : dictGetD (dictSetJ d k v) k dv = v := by
  rw [dictGetD, dictGet_dictSetJ_self]

theorem dictGet_dictSetJ_ne (d : List (String × JVal)) {k k2 : String}
    (h : k2 ≠ k) (v : JVal) :
    dictGet (dictSetJ d k v) k2 = dictGet d k2 := by
  have hkk2 : ¬(k == k2) = true := by simpa using Ne.symm h
  induction d with
  | nil =>
    show dictGet [(k, v)] k2 = dictGet [] k2
    rw [dictGet, List.find?_cons_of_neg _ (by simpa using hkk2)]
    rfl
  | cons e rest ih =>
    obtain ⟨k3, v3⟩ := e
    simp only [dictSetJ]
    by_cases hk : k3 == k
    · rw [if_pos hk]
      have hk3 : ¬(k3 == k2) = true := by
        rw [eq_of_beq hk]; exact hkk2
      simp only [dictGet]
      rw [List.find?_cons_of_neg _ (by simpa using hkk2),
        List.find?_cons_of_neg _ (by simpa using hk3)]
    · rw [if_neg hk]
      simp only [dictGet]
      cases hb : (k3 == k2) with
      | true =>
        rw [List.find?_cons_of_pos _ (by simpa using hb),
          List.find?_cons_of_pos _ (by simpa using hb)]
      | false =>
        rw [List.find?_cons_of_neg _ (by simp [hb]),
          List.find?_cons_of_neg _ (by simp [hb])]
        exact ih

/-- Replacing the `children` entry leaves every `parent:`-rooted lookup
unchanged. -/
theorem getpathList_dictSetJ_children (d : List (String × JVal)) (X : JVal)
    (path : List String) (dflt : Option JVal) :
    getpathList (.obj (dictSetJ d "children" X)) ("parent" :: path) dflt
      = getpathList (.obj d) ("parent" :: path) dflt := by
  have hX := dictGet_dictSetJ_ne d (show "parent" ≠ "children" by decide) X
  cases path with
  | nil =>
    cases dflt with
    | none => simp only [getpathList, hX]
    | some dv => simp only [getpathList, hX]
  | cons k2 rest =>
    cases dflt with
    | none => simp only [getpathList, hX]
    | some dv => simp only [getpathList, dictGetD, hX]

/-- The `children:Pod.v1` lookup on a request built by `withPods` returns
exactly the substituted pod collection. -/
theorem getpathList_children_pods (d ch : List (String × JVal))
    (pods : List (String × JVal)) :
    getpathList
      (.obj (dictSetJ d "children" (.obj (dictSetJ ch "Pod.v1" (.obj pods)))))
      ["children", "Pod.v1"] (some (.obj [])) = .ok (.obj pods) := by
  simp only [getpathList]
  rw [dictGetD_dictSetJ_self]
  simp only [getpathList, dictGet_dictSetJ_self]

theorem pyItems_obj (d : List (String × JVal)) : pyItems (.obj d) = .ok d :=
  rfl

/-- `mergeLoop` ignores the pods that are not children of this parent:
it only sees the prefix-filtered sublist. -/
theorem mergeLoop_filter (pfx : String) :
    ∀ (items : List (String × JVal)) (ph : Phases)
      (cur : List (String × String)),
      mergeLoop pfx items ph cur
        = mergeLoop pfx (items.filter (fun q => is_my_child pfx q.1)) ph cur := by
  intro items
  induction items with
  | nil => intro ph cur; rfl
  | cons it rest ih =>
    intro ph cur
    obtain ⟨pod_name, value⟩ := it
    cases hchild : is_my_child pfx pod_name with
    | true =>
      rw [List.filter_cons_of_pos (by simpa using hchild)]
      simp only [mergeLoop, hchild, if_true]
      simp only [ih]
    | false =>
      rw [List.filter_cons_of_neg (by simp [hchild])]
      simp only [mergeLoop, hchild, Bool.false_eq_true, if_false]
      exact ih ph cur

/-- **C1** (sticky success).  If the phase recorded for a job is `Succeeded`,
then merging any batch of observed job phases — and likewise any sequence of
such merge batches — leaves the job recorded as `Succeeded`. -/
theorem sticky_success (prior : Phases) (job : String)
    (h : get_job_phase job prior = some "Succeeded") :
    (∀ observed : List (String × String),
        get_job_phase job (observed.foldl merge_observed prior)
          = some "Succeeded") ∧
    (∀ batches : List (List (String × String)),
        get_job_phase job
          (batches.foldl (fun ph batch => batch.foldl merge_observed ph) prior)
          = some "Succeeded") :=
  ⟨fun obs => sticky_foldl h obs, fun batches => sticky_batches h batches⟩

/-- Witness for `sticky_success` at a concrete input. -/
theorem sticky_success_witness :
    get_job_phase "A" ([("A", "Failed")].foldl merge_observed
        [("A", "Succeeded")]) = some "Succeeded"
    ∧ get_job_phase "A"
        ([[("A", "Failed")], [("A", "Running")]].foldl
          (fun ph batch => batch.foldl merge_observed ph)
          [("A", "Succeeded")]) = some "Succeeded" :=
  ⟨(sticky_success [("A", "Succeeded")] "A" (by decide)).1 [("A", "Failed")],
   (sticky_success [("A", "Succeeded")] "A" (by decide)).2
     [[("A", "Failed")], [("A", "Running")]]⟩

/-- **C2** (disappearance policy).  In a phase map with unique job names
(the spec's PhaseMap invariant), a job recorded `Running` and absent from
the observed job set is rewritten to `Disappeared` by the disappearance
loop, and a dependency requiring `Succeeded` on it is then satisfied by
`phase_matches`. -/
theorem disappearance_policy (phases : Phases)
    (current_jobs : List (String × String)) (J : String)
    (hnd : (phases.map Prod.fst).Nodup)
    (hrun : get_job_phase J phases = some "Running")
    (habs : current_jobs.any (fun q => q.1 == J) = false) :
    get_job_phase J (disappearLoop current_jobs phases) = some "Disappeared"
    ∧ phase_matches (J, "Succeeded") (disappearLoop current_jobs phases)
        = true := by
  have hget : get_job_phase J (disappearLoop current_jobs phases)
      = some "Disappeared" := by
    rw [disappearLoop_eq_map current_jobs phases hnd,
      get_job_phase_map_disappearStep current_jobs hrun]
    unfold disappearStep
    simp [habs]
  refine ⟨hget, ?_⟩
  unfold phase_matches
  simp [hget]

/-- Witness for `disappearance_policy` at a concrete input. -/
theorem disappearance_policy_witness :
    get_job_phase "A" (disappearLoop [("B", "Running")] [("A", "Running")])
        = some "Disappeared"
    ∧ phase_matches ("A", "Succeeded")
        (disappearLoop [("B", "Running")] [("A", "Running")]) = true :=
  disappearance_policy [("A", "Running")] [("B", "Running")] "A"
    (by decide) (by decide) (by decide)

/-- **C9** (Disappeared is not sticky).  In phase maps with unique job names,
if a job is recorded `Disappeared` and a pod for it is observed with phase
`p`, the merge overwrites the record with `p` (only `Succeeded` is protected
from overwrite). -/
theorem disappeared_not_sticky :
    ∀ (observed : List (String × String)) (prior : Phases) (J p : String),
      (prior.map Prod.fst).Nodup →
      (observed.map Prod.fst).Nodup →
      (J, p) ∈ observed →
      get_job_phase J prior = some "Disappeared" →
      get_job_phase J (observed.foldl merge_observed prior) = some p := by
  intro observed
  induction observed with
  | nil => intro prior J p _ _ h3 _; simp at h3
  | cons o rest ih =>
    intro prior J p h1 h2 h3 h4
    simp only [List.map_cons, List.nodup_cons] at h2
    obtain ⟨ho_not, h2tl⟩ := h2
    rw [List.foldl_cons]
    by_cases hk : o.1 = J
    · have hop : o = (J, p) := by
        rcases List.mem_cons.1 h3 with heq | hmem
        · exact heq.symm
        · exact absurd (hk ▸ List.mem_map.2 ⟨(J, p), hmem, rfl⟩) ho_not
      have hstep : merge_observed prior o = set_job_phase J prior p := by
        rw [hop]
        unfold merge_observed
        rw [h4]
        simp
      rw [hstep]
      have hrest : ∀ o' ∈ rest, o'.1 ≠ J := by
        intro o' ho' heq
        exact ho_not (hk ▸ heq ▸ List.mem_map.2 ⟨o', ho', rfl⟩)
      rw [get_foldl_merge_not_mem rest _ hrest]
      exact get_job_phase_set_same h1 p
    · have h3' : (J, p) ∈ rest := by
        rcases List.mem_cons.1 h3 with heq | hmem
        · exact absurd (congrArg Prod.fst heq.symm) hk
        · exact hmem
      exact ih (merge_observed prior o) J p (nodup_merge_observed h1) h2tl h3'
        (by rw [get_merge_observed_ne (fun heq => hk heq.symm) prior]; exact h4)

/-- Witness for `disappeared_not_sticky` at a concrete input. -/
theorem disappeared_not_sticky_witness :
    get_job_phase "J"
      ([("J", "Running")].foldl merge_observed [("J", "Disappeared")])
      = some "Running" :=
  disappeared_not_sticky [("J", "Running")] [("J", "Disappeared")]
    "J" "Running" (by decide) (by decide) (by decide) (by decide)

/-- **C3** (readiness evaluation).  `should_run` is false for a job whose own
phase is `Succeeded` or `Disappeared`; otherwise it is true iff every
dependency matches (an empty dependency list holding vacuously); hence a job
whose dependency list contains any unsatisfied dependency is excluded from
the desired set computed by `calculate_jobs`. -/
theorem should_run_characterization :
    (∀ (job : String) (phases : Phases) (deps : Dependencies),
        (get_job_phase job phases = some "Succeeded" ∨
         get_job_phase job phases = some "Disappeared") →
        should_run job phases deps = false) ∧
    (∀ (job : String) (phases : Phases) (deps : Dependencies),
        get_job_phase job phases ≠ some "Succeeded" →
        get_job_phase job phases ≠ some "Disappeared" →
        (should_run job phases deps = true ↔
          ∀ d ∈ deps, phase_matches d phases = true)) ∧
    (∀ (job : String) (phases : Phases),
        get_job_phase job phases ≠ some "Succeeded" →
        get_job_phase job phases ≠ some "Disappeared" →
        should_run job phases [] = true) ∧
    (∀ (job : String) (phases : Phases) (graph : DependencyMap),
        (∀ deps, (job, deps) ∈ graph →
          ∃ d ∈ deps, phase_matches d phases = false) →
        job ∉ calculate_jobs graph phases) := by
  have hfalse : ∀ (job : String) (phases : Phases) (deps : Dependencies),
      (get_job_phase job phases = some "Succeeded" ∨
       get_job_phase job phases = some "Disappeared") →
      should_run job phases deps = false := by
    intro job phases deps h
    unfold should_run
    rcases h with h | h <;> simp [h]
  have hiff : ∀ (job : String) (phases : Phases) (deps : Dependencies),
      get_job_phase job phases ≠ some "Succeeded" →
      get_job_phase job phases ≠ some "Disappeared" →
      (should_run job phases deps = true ↔
        ∀ d ∈ deps, phase_matches d phases = true) := by
    intro job phases deps h1 h2
    unfold should_run
    rw [if_neg]
    · exact List.all_eq_true
    · simp [h1, h2]
  refine ⟨hfalse, hiff, ?_, ?_⟩
  · intro job phases h1 h2
    rw [hiff job phases [] h1 h2]
    simp
  · intro job phases graph hbad hmem
    unfold calculate_jobs at hmem
    rw [List.mem_map] at hmem
    obtain ⟨jd, hjd, hfst⟩ := hmem
    rw [List.mem_filter] at hjd
    obtain ⟨hgr, hrun⟩ := hjd
    obtain ⟨d, hd, hdf⟩ := hbad jd.2 (by
      have : jd = (job, jd.2) := by
        rw [← hfst]
      exact this ▸ hgr)
    by_cases hterm : get_job_phase jd.1 phases = some "Succeeded" ∨
        get_job_phase jd.1 phases = some "Disappeared"
    · rw [hfalse jd.1 phases jd.2 hterm] at hrun
      exact Bool.false_ne_true hrun
    · push_neg at hterm
      rw [hiff jd.1 phases jd.2 hterm.1 hterm.2] at hrun
      rw [hrun d hd] at hdf
      exact absurd hdf (by simp)

/-- Witness for `should_run_characterization` at concrete inputs. -/
theorem should_run_characterization_witness :
    should_run "A" [("A", "Succeeded")] [] = false
    ∧ (should_run "B" [("A", "Succeeded")] [("A", "Succeeded")] = true ↔
        ∀ d ∈ [("A", "Succeeded")],
          phase_matches d [("A", "Succeeded")] = true)
    ∧ should_run "B" [] [] = true
    ∧ "B" ∉ calculate_jobs [("B", [("A", "Succeeded"), ("C", "Running")])]
        [("A", "Succeeded")] :=
  ⟨should_run_characterization.1 "A" [("A", "Succeeded")] []
      (Or.inl (by decide)),
   should_run_characterization.2.1 "B" [("A", "Succeeded")]
      [("A", "Succeeded")] (by decide) (by decide),
   should_run_characterization.2.2.1 "B" [] (by decide) (by decide),
   should_run_characterization.2.2.2 "B" [("A", "Succeeded")]
      [("B", [("A", "Succeeded"), ("C", "Running")])] (by
        intro deps hd
        simp only [List.mem_singleton, Prod.mk.injEq] at hd
        rw [hd.2]
        exact ⟨("C", "Running"), by decide, by decide⟩)⟩

/-- **C4** (monotonic counter).  Whenever the reconcile succeeds, the
response's `status.counter` is one more than the request's
`parent.status.counter` as read with default `0`; in particular, when that
path is absent from the request the response counter is `0 + 1 = 1`. -/
theorem counter_increments (req resp : JVal)
    (h : handle_json_request req = .ok resp) :
    ∃ n : Int,
      getpath req "parent:status:counter" (some (.num 0)) = .ok (.num n)
      ∧ getpath resp "status:counter" none = .ok (.num (n + 1))
      ∧ (∀ e, getpath req "parent:status:counter" none = .error e → n = 0) := by
  unfold handle_json_request at h
  obtain ⟨counterV, hc, h⟩ := except_bind_eq_ok.1 h
  obtain ⟨nameV, hn, h⟩ := except_bind_eq_ok.1 h
  obtain ⟨rp, hrp, h⟩ := except_bind_eq_ok.1 h
  obtain ⟨phasesV, hpv, h⟩ := except_bind_eq_ok.1 h
  obtain ⟨phaseItems, hpi, h⟩ := except_bind_eq_ok.1 h
  obtain ⟨previous_phases, hpp, h⟩ := except_bind_eq_ok.1 h
  obtain ⟨childrenV, hcv, h⟩ := except_bind_eq_ok.1 h
  obtain ⟨childItems, hci, h⟩ := except_bind_eq_ok.1 h
  obtain ⟨merged, hm, h⟩ := except_bind_eq_ok.1 h
  obtain ⟨phases, current_jobs⟩ := merged
  obtain ⟨depsV, hdv, h⟩ := except_bind_eq_ok.1 h
  obtain ⟨deps, hdeps, h⟩ := except_bind_eq_ok.1 h
  obtain ⟨containersV, hcsv, h⟩ := except_bind_eq_ok.1 h
  obtain ⟨containers, hcs, h⟩ := except_bind_eq_ok.1 h
  obtain ⟨pods, hpods, h⟩ := except_bind_eq_ok.1 h
  obtain ⟨cnt, hcnt, h⟩ := except_bind_eq_ok.1 h
  have hresp : resp = .obj
      [("status", .obj
        [("phases", .list ((disappearLoop current_jobs phases).map
            (fun p => .list [.str p.1, .str p.2]))),
         ("counter", .num (cnt + 1))]),
       ("children", .list pods)] := (Except.ok.inj h).symm
  cases counterV with
  | num n =>
    have hcn : cnt = n := (Except.ok.inj hcnt).symm
    subst hcn
    refine ⟨cnt, hc, ?_, ?_⟩
    · rw [hresp]
      rfl
    · intro e he
      have := getpathList_default_of_error (splitColon "parent:status:counter")
        req (.num 0) (.num cnt) e he hc
      injection this
  | str s => exact absurd hcnt (by simp)
  | list xs => exact absurd hcnt (by simp)
  | obj dd => exact absurd hcnt (by simp)

/-- Witness for `counter_increments` at a concrete input. -/
theorem counter_increments_witness :
    ∃ n : Int,
      getpath counterWitnessRequest "parent:status:counter" (some (.num 0))
        = .ok (.num n)
      ∧ getpath (.obj
          [("status", .obj [("phases", .list []), ("counter", .num 6)]),
           ("children", .list [])]) "status:counter" none = .ok (.num (n + 1))
      ∧ (∀ e, getpath counterWitnessRequest "parent:status:counter" none
          = .error e → n = 0) :=
  counter_increments counterWitnessRequest
    (.obj [("status", .obj [("phases", .list []), ("counter", .num 6)]),
           ("children", .list [])]) (by rfl)

set_option maxRecDepth 4096 in
/-- **C5** (failure semantics).  A request on which the mandatory parent
name lookup raises makes the whole reconcile fail (no partial response);
when the reconcile succeeds, every declared container was successfully
indexed for its mandatory `name`; and requests lacking the optional fields
(`restartPolicy`, counter, phases, children, dependencies) succeed with the
documented defaults. -/
theorem failure_semantics :
    (∀ (req : JVal) (e : PyErr),
        getpath req "parent:metadata:name" none = .error e →
        ∃ e2, handle_json_request req = .error e2) ∧
    (∀ (req resp : JVal) (cs : List JVal),
        handle_json_request req = .ok resp →
        getpath req "parent:spec:template:spec:containers" (some (.list []))
          = .ok (.list cs) →
        ∀ c ∈ cs, ∃ v, pyIndex c "name" = .ok v) ∧
    handle_json_request minimalRequest = .ok minimalResponse ∧
    handle_json_request defaultsRequest = .ok defaultsResponse := by
  refine ⟨?_, ?_, by rfl, by rfl⟩
  · intro req e he
    cases hc : getpath req "parent:status:counter" (some (.num 0)) with
    | error e1 =>
      refine ⟨e1, ?_⟩
      unfold handle_json_request
      rw [hc, except_error_bind]
    | ok cv =>
      refine ⟨e, ?_⟩
      unfold handle_json_request
      rw [hc, except_ok_bind, he, except_error_bind]
  · intro req resp cs h hcs
    unfold handle_json_request at h
    obtain ⟨counterV, hc, h⟩ := except_bind_eq_ok.1 h
    obtain ⟨nameV, hn, h⟩ := except_bind_eq_ok.1 h
    obtain ⟨rp, hrp, h⟩ := except_bind_eq_ok.1 h
    obtain ⟨phasesV, hpv, h⟩ := except_bind_eq_ok.1 h
    obtain ⟨phaseItems, hpi, h⟩ := except_bind_eq_ok.1 h
    obtain ⟨previous_phases, hpp, h⟩ := except_bind_eq_ok.1 h
    obtain ⟨childrenV, hcv, h⟩ := except_bind_eq_ok.1 h
    obtain ⟨childItems, hci, h⟩ := except_bind_eq_ok.1 h
    obtain ⟨merged, hm, h⟩ := except_bind_eq_ok.1 h
    obtain ⟨phases, current_jobs⟩ := merged
    obtain ⟨depsV, hdv, h⟩ := except_bind_eq_ok.1 h
    obtain ⟨deps, hdeps, h⟩ := except_bind_eq_ok.1 h
    obtain ⟨containersV, hcsv, h⟩ := except_bind_eq_ok.1 h
    obtain ⟨containers, hcontainers, h⟩ := except_bind_eq_ok.1 h
    obtain ⟨pods, hpods, h⟩ := except_bind_eq_ok.1 h
    have hv : containersV = .list cs := Except.ok.inj (hcsv ▸ hcs)
    subst hv
    have hcc : containers = cs := (Except.ok.inj hcontainers).symm
    subst hcc
    exact buildPods_ok_name containers _ rp _ pods hpods

/-- Witness for `failure_semantics` at concrete inputs. -/
theorem failure_semantics_witness :
    (∃ e2, handle_json_request (.obj []) = .error e2)
    ∧ (∃ v, pyIndex (.obj [("name", .str "A")]) "name" = .ok v) :=
  ⟨failure_semantics.1 (.obj []) (.keyError "parent") (by rfl),
   failure_semantics.2.1 minimalRequest minimalResponse
     [.obj [("name", .str "A")]] failure_semantics.2.2.1 (by rfl)
     (.obj [("name", .str "A")]) (by simp)⟩

set_option maxRecDepth 4096 in
/-- **C6** (concrete scenario).  On the request with parent name `MyName`,
one declared job `A` with no dependencies, a container template named `A`,
no declared prior phases and no observed pods, the reconcile returns
`status.counter = 1`, an empty `status.phases`, and exactly one pod, named
`MyName-A` with restart policy `Never`. -/
theorem concrete_scenario_single_job :
    handle_json_request exampleRequest = .ok exampleResponse := by
  rfl

/-- **C7 counterexample**: the depended-on job `A` has no entry in the empty
phase map, yet a dependency requiring `Pending` on it is NOT satisfied. -/
theorem absent_pending_counterexample :
    get_job_phase "A" [] = none
    ∧ phase_matches ("A", "Pending") [] = false := by
  decide

/-- **C7 (amended)**: a dependency on a job with no entry in the merged phase
map is unsatisfied for EVERY required phase — including `Pending`; the
absent phase is not equated with the string `Pending`. -/
theorem phase_matches_absent (dep_job dep_phase : String) (phases : Phases)
    (h : get_job_phase dep_job phases = none) :
    phase_matches (dep_job, dep_phase) phases = false := by
  simp only [phase_matches, h]
  split <;> rfl

/-- Witness for `phase_matches_absent` at a concrete input. -/
theorem phase_matches_absent_witness :
    phase_matches ("X", "Failed") [("A", "Running")] = false :=
  phase_matches_absent "X" "Failed" [("A", "Running")] (by decide)

set_option maxRecDepth 4096 in
/-- **C8** (dependency-graph input encodings).  On the repository's own
`test_dummy` request, whose graph is the mapping
`\x7b'EXAMPLE CONTAINER': []\x7d`, the reconcile raises `ValueError`
(iterating a dict yields its keys, and tuple-unpacking the 17-character key
fails), so the mapping encoding does NOT produce the response the test
expects; the list encoding of the same graph succeeds.  Only the EMPTY graph
is accepted in both encodings, and it yields no desired pods. -/
theorem dependencies_mapping_encoding_bug :
    handle_json_request testDummyRequest = .error PyErr.valueError
    ∧ handle_json_request testDummyListRequest = .ok testDummyListResponse
    ∧ handle_json_request emptyGraphObjRequest = .ok emptyGraphResponse
    ∧ handle_json_request emptyGraphListRequest = .ok emptyGraphResponse :=
  ⟨rfl, rfl, rfl, rfl⟩

/-- **C10** (prefix noninterference).  Two requests that differ only in the
`children:Pod.v1` entries whose pod names do NOT start with
`<parentName>-` produce identical responses: the reconcile's output depends
only on the prefix-filtered pod collection. -/
theorem prefix_noninterference (req : JVal)
    (pods1 pods2 : List (String × JVal))
    (hfilt : ∀ v : JVal, getpath req "parent:metadata:name" none = .ok v →
        pods1.filter (fun q => is_my_child (pyStr v ++ "-") q.1)
          = pods2.filter (fun q => is_my_child (pyStr v ++ "-") q.1)) :
    handle_json_request (withPods req pods1)
      = handle_json_request (withPods req pods2) := by
  cases req with
  | str s => rfl
  | num n => rfl
  | list xs => rfl
  | obj d =>
    unfold handle_json_request
    simp only [withPods, getpath,
      show splitColon "parent:status:counter"
        = ["parent", "status", "counter"] from rfl,
      show splitColon "parent:metadata:name"
        = ["parent", "metadata", "name"] from rfl,
      show splitColon "parent:spec:template:spec:restartPolicy"
        = ["parent", "spec", "template", "spec", "restartPolicy"] from rfl,
      show splitColon "parent:status:phases"
        = ["parent", "status", "phases"] from rfl,
      show splitColon "children:Pod.v1" = ["children", "Pod.v1"] from rfl,
      show splitColon "parent:spec:dependencies"
        = ["parent", "spec", "dependencies"] from rfl,
      show splitColon "parent:spec:template:spec:containers"
        = ["parent", "spec", "template", "spec", "containers"] from rfl,
      getpathList_dictSetJ_children, getpathList_children_pods,
      pyItems_obj, except_ok_bind]
    cases hc : getpathList (.obj d) ["parent", "status", "counter"]
        (some (.num 0)) with
    | error e => simp only [except_error_bind]
    | ok cv =>
      simp only [except_ok_bind]
      cases hn : getpathList (.obj d) ["parent", "metadata", "name"] none with
      | error e => simp only [except_error_bind]
      | ok v =>
        simp only [except_ok_bind]
        have hn' : getpath (.obj d) "parent:metadata:name" none = .ok v := hn
        cases hrp : getpathList (.obj d)
            ["parent", "spec", "template", "spec", "restartPolicy"]
            (some (.str "Never")) with
        | error e => simp only [except_error_bind]
        | ok rp =>
          simp only [except_ok_bind]
          cases hpv : getpathList (.obj d) ["parent", "status", "phases"]
              (some (.list [])) with
          | error e => simp only [except_error_bind]
          | ok pv =>
            simp only [except_ok_bind]
            cases hpi : pyIter pv with
            | error e => simp only [except_error_bind]
            | ok phaseItems =>
              simp only [except_ok_bind]
              cases hpp : parsePhaseItems phaseItems with
              | error e => simp only [except_error_bind]
              | ok pp =>
                simp only [except_ok_bind]
                rw [mergeLoop_filter (pyStr v ++ "-") pods1 pp [],
                  mergeLoop_filter (pyStr v ++ "-") pods2 pp [],
                  hfilt v hn']

/-- Witness for `prefix_noninterference` at a concrete input: adding a pod
named `Other-B` (not prefixed by `P-`) leaves the response unchanged. -/
theorem prefix_noninterference_witness :
    handle_json_request (withPods noninterferenceRequest
        [("P-A", .obj [("status", .obj [("phase", .str "Running")])])])
      = handle_json_request (withPods noninterferenceRequest
        [("P-A", .obj [("status", .obj [("phase", .str "Running")])]),
         ("Other-B", .obj [("status", .obj [("phase", .str "Failed")])])]) :=
  prefix_noninterference noninterferenceRequest
    [("P-A", .obj [("status", .obj [("phase", .str "Running")])])]
    [("P-A", .obj [("status", .obj [("phase", .str "Running")])]),
     ("Other-B", .obj [("status", .obj [("phase", .str "Failed")])])]
    (by
      intro v hv
      cases Except.ok.inj hv
      rfl)
